import Mathlib

/-!
Shallow embedding of the math3d library (src/math3d/vectorN.py and
src/math3d/quaternion.py) over the reals, together with theorems that
settle the frozen claims about its specification.

Arrays of vectors and quaternions are modelled as Lean lists of rows;
the per-row numeric kernels are translated directly from the numpy
expressions in the source.  Machine floats are modelled by real numbers.
Python exceptions (ValueError, IndexError, KeyError, AttributeError) are
modelled by an error type and functions returning Except.
-/

namespace Math3d

noncomputable section

/-- Kinds of Python exception raised by the library:
ValueError for explicit raise statements, failed broadcasts and resizing a
non-owning view, IndexError for out-of-range numpy indexing, KeyError for a
missing entry in the VECTOR_BY_SIZE registries, and AttributeError for an
attribute a class does not define. -/
inductive Err
  | valueError
  | indexError
  | keyError
  | attributeError
deriving DecidableEq, Repr

/-- A 3-component vector row, the element of a Vector3Array. -/
structure Vec3 where
  x : ℝ
  y : ℝ
  z : ℝ

/-- A quaternion row stored in xyzw order, scalar last
(class Quaternion in quaternion.py). -/
structure Quat where
  x : ℝ
  y : ℝ
  z : ℝ
  w : ℝ

/-- Componentwise vector addition. -/
def vadd (a b : Vec3) : Vec3 := ⟨a.x + b.x, a.y + b.y, a.z + b.z⟩

/-- Componentwise vector subtraction, as in self[1:] - self[:-1]. -/
def vsub (a b : Vec3) : Vec3 := ⟨a.x - b.x, a.y - b.y, a.z - b.z⟩

/-- Multiplication of a vector row by a scalar. -/
def smul3 (r : ℝ) (a : Vec3) : Vec3 := ⟨r * a.x, r * a.y, r * a.z⟩

/-- Per-row dot product, the einsum ij,ij->i kernel of VectorNArray. -/
def dot3 (a b : Vec3) : ℝ := a.x * b.x + a.y * b.y + a.z * b.z

/-- np.cross on 3-vectors. -/
def cross (a b : Vec3) : Vec3 :=
  ⟨a.y * b.z - a.z * b.y, a.z * b.x - a.x * b.z, a.x * b.y - a.y * b.x⟩

/-- VectorN.length: square root of the summed squares. -/
def vlen (v : Vec3) : ℝ := Real.sqrt (dot3 v v)

/-- VectorNArray.normal applied to one row: the row divided by its length. -/
def vnormal (v : Vec3) : Vec3 := ⟨v.x / vlen v, v.y / vlen v, v.z / vlen v⟩

/-- The xyz part q[:, :3] of a quaternion row. -/
def Quat.xyz (q : Quat) : Vec3 := ⟨q.x, q.y, q.z⟩

/-- Componentwise quaternion addition (ndarray +). -/
def qadd (p q : Quat) : Quat := ⟨p.x + q.x, p.y + q.y, p.z + q.z, p.w + q.w⟩

/-- Multiplication of a quaternion row by a scalar ratio (ndarray *). -/
def qscale (p : Quat) (r : ℝ) : Quat := ⟨p.x * r, p.y * r, p.z * r, p.w * r⟩

/-- Per-row dot product of two quaternion rows,
the einsum ...ij,...ij->...i kernel used by slerp and angles. -/
def qdot (p q : Quat) : ℝ := p.x * q.x + p.y * q.y + p.z * q.z + p.w * q.w

/-- Quaternion.fromComponents: build a quaternion from x, y, z, w. -/
def Quaternion.fromComponents (x y z w : ℝ) : Quat := ⟨x, y, z, w⟩

/-- The default quaternion built by Quaternion with no argument:
zeros with w set to 1. -/
def Quaternion.identity : Quat := ⟨0, 0, 0, 1⟩

/-- One all-zero row of QuaternionArray.zeros. -/
def QuaternionArray.zeroRow : Quat := ⟨0, 0, 0, 0⟩

/-- np.deg2rad: degrees to radians. -/
def deg2rad (x : ℝ) : ℝ := x * (Real.pi / 180)

/-- The angle conversion both quaternion constructors perform:
if degrees is true the angle is passed through np.deg2rad first. -/
def convertAngle (x : ℝ) (degrees : Bool) : ℝ := if degrees then deg2rad x else x

/-- QuaternionArray.axisAngle, one row: ret[:, :3] = axes * sin(angles),
ret[:, 3] = cos(angles).  Note the source applies sin and cos to the full
angle, not the half angle. -/
def QuaternionArray.axisAngle (axis : Vec3) (angle : ℝ) (degrees : Bool) : Quat :=
  let ang := convertAngle angle degrees
  let s := Real.sin ang
  ⟨axis.x * s, axis.y * s, axis.z * s, Real.cos ang⟩

/-- QuaternionArray.quatquatProduct, one row of the Hamilton product kernel:
prod[:, 3] = p[:, 3] * q[:, 3] - sum(p[:, :3] * q[:, :3]) and
prod[:, :3] = p[:, 3] * q[:, :3] + q[:, 3] * p[:, :3] + np.cross(p[:, :3], q[:, :3]). -/
def QuaternionArray.quatquatProduct (p q : Quat) : Quat :=
  let w := p.w * q.w - (p.x * q.x + p.y * q.y + p.z * q.z)
  let v := vadd (vadd (smul3 p.w (Quat.xyz q)) (smul3 q.w (Quat.xyz p)))
    (cross (Quat.xyz p) (Quat.xyz q))
  ⟨v.x, v.y, v.z, w⟩

/-- QuaternionArray.vectorquatproduct, one row: qvec = q[:, :3],
uv = cross(qvec, v), uuv = cross(qvec, uv), result = v + 2*q.w*uv + 2*uuv. -/
def QuaternionArray.vectorquatproduct (v : Vec3) (q : Quat) : Vec3 :=
  let qvec := Quat.xyz q
  let uv := cross qvec v
  let uuv := cross qvec uv
  vadd (vadd v (smul3 (2 * q.w) uv)) (smul3 2 uuv)

/-- The Quaternion branch of VectorN.mul for a Vector3 on the left:
asVectorSize(3) on a Vector3 is a copy, so the product is the
vectorquatproduct kernel applied to the single row. -/
def VectorN.mulQuat (v : Vec3) (q : Quat) : Vec3 :=
  QuaternionArray.vectorquatproduct v q

/-- The axis names accepted by QuaternionArray.alignedRotations. -/
inductive Axis
  | x
  | y
  | z
deriving DecidableEq, Repr

/-- The column index computed from the axis name, as in "xyz".index(axisName). -/
def axisIndex : Axis → Nat
  | .x => 0
  | .y => 1
  | .z => 2

/-- The unit basis vector for a named axis. -/
def basisVec : Axis → Vec3
  | .x => ⟨1, 0, 0⟩
  | .y => ⟨0, 1, 0⟩
  | .z => ⟨0, 0, 1⟩

/-- Assignment ret[:, i] = r to one component of a quaternion row. -/
def Quat.setC (q : Quat) (i : Nat) (r : ℝ) : Quat :=
  match i with
  | 0 => ⟨r, q.y, q.z, q.w⟩
  | 1 => ⟨q.x, r, q.z, q.w⟩
  | 2 => ⟨q.x, q.y, r, q.w⟩
  | 3 => ⟨q.x, q.y, q.z, r⟩
  | _ => q

/-- Read of component i of a quaternion row. -/
def Quat.getC (q : Quat) : Nat → ℝ
  | 0 => q.x
  | 1 => q.y
  | 2 => q.z
  | 3 => q.w
  | _ => 0

/-- QuaternionArray.alignedRotations, one row: starting from a zero row,
ret[:, 3] = cos(angles / 2) and ret[:, ind] = sin(angles / 2), where ind
is the index of the axis name in xyz, after the optional degree conversion. -/
def QuaternionArray.alignedRotations (axisName : Axis) (angle : ℝ) (degrees : Bool) : Quat :=
  let ang := convertAngle angle degrees
  let r1 := Quat.setC QuaternionArray.zeroRow 3 (Real.cos (ang / 2))
  Quat.setC r1 (axisIndex axisName) (Real.sin (ang / 2))

/-- QuaternionArray.slerp, one row: cosHalfAngle is the per-row dot, entries
with absolute value at least 1 are clamped to exactly 1, then
halfAngle = acos, sinHalfAngle = sqrt(1 - cos * cos), and the result is
self * sin((1 - t) * halfAngle) / sinHalfAngle
plus other * sin(t * halfAngle) / sinHalfAngle. -/
def QuaternionArray.slerp (p q : Quat) (t : ℝ) : Quat :=
  let c0 := qdot p q
  let c := if 1 ≤ |c0| then 1 else c0
  let halfAngle := Real.arccos c
  let sinHalfAngle := Real.sqrt (1 - c * c)
  qadd (qscale p (Real.sin ((1 - t) * halfAngle) / sinHalfAngle))
    (qscale q (Real.sin (t * halfAngle) / sinHalfAngle))

/-- VectorNArray.angle, one row: acos of the dot of the two normalized rows. -/
def VectorNArray.angle (a b : Vec3) : ℝ :=
  Real.arccos (dot3 (vnormal a) (vnormal b))

/-- The edge vectors self[1:] - self[:-1] of an ordered point list. -/
def ptAdjVecs (pts : List Vec3) : List Vec3 :=
  List.zipWith (fun a b => vsub a b) pts.tail pts

/-- The quaternion list built inside VectorNArray.parallelTransport:
binorms = adjVecs[1:].cross(adjVecs[:-1]), angles = adjVecs[1:].angle(adjVecs[:-1])
negated when inverse, quats = QuaternionArray.axisAngle(binorms, angles). -/
def ptQuats (pts : List Vec3) (inverse : Bool) : List Quat :=
  let adjVecs := ptAdjVecs pts
  let binorms := List.zipWith cross adjVecs.tail adjVecs
  let angles0 := List.zipWith VectorNArray.angle adjVecs.tail adjVecs
  let angles := if inverse then angles0.map (fun a => -a) else angles0
  List.zipWith (fun ax an => QuaternionArray.axisAngle ax an false) binorms angles

/-- The sequential loop of parallelTransport:
for i in range(k) starting from out[0] = cur, out[i + 1] = out[i] * quats[i].
Reading quats[i] past the end of the quaternion array raises IndexError. -/
def transportLoop : List Quat → Vec3 → Nat → Except Err (List Vec3)
  | _, cur, 0 => .ok [cur]
  | [], _, _ + 1 => .error .indexError
  | q :: rest, cur, k + 1 =>
    match transportLoop rest (VectorN.mulQuat cur q) k with
    | .error e => .error e
    | .ok tl => .ok (cur :: tl)

/-- The allocation out = VECTOR_ARRAY_BY_SIZE[3].zeros(len(self)) performed
by parallelTransport: the VectorNArray class defines only the ones and full
alternate constructors, and np.ndarray has no zeros attribute either, so
looking up zeros on the Vector3Array class raises AttributeError. -/
def VectorNArray.zerosLookup (_length : Nat) : Except Err (List Vec3) :=
  .error .attributeError

/-- VectorNArray.parallelTransport: builds the per-step quaternions, then
allocates out = VECTOR_ARRAY_BY_SIZE[3].zeros(len(self)), which raises
AttributeError because the class has no zeros constructor, so the function
fails there on every input.  The branch after the allocation transcribes
the remaining, never reached, source lines: out[0] = upv (IndexError on an
empty array), the loop for i in range(len(self) - 1) doing
out[i + 1] = out[i] * quats[i], and out[-1] = out[-2] (IndexError when
there is no index -2). -/
def VectorNArray.parallelTransport (pts : List Vec3) (upv : Vec3) (inverse : Bool) :
    Except Err (List Vec3) :=
  let quats := ptQuats pts inverse
  match VectorNArray.zerosLookup pts.length with
  | .error e => .error e
  | .ok _out =>
    if pts.length = 0 then .error .indexError
    else
      match transportLoop quats upv (pts.length - 1) with
      | .error e => .error e
      | .ok out =>
        if pts.length < 2 then .error .indexError
        else .ok (out.dropLast ++ [out.getD (pts.length - 2) ⟨0, 0, 0⟩])

/-- VectorNArray.adjacentLengths: an explicit ValueError when fewer than
2 vectors are given, otherwise the per-row lengths of self[1:] - self[:-1]. -/
def VectorNArray.adjacentLengths (pts : List Vec3) : Except Err (List ℝ) :=
  if pts.length < 2 then .error .valueError
  else .ok ((List.zipWith (fun a b => vsub a b) pts.tail pts).map vlen)

/-- VectorN.asVectorSize on a vector of components v (whose length is the
dimension N of its class): a copy when n == N, otherwise a lookup of the
target class in VECTOR_BY_SIZE (KeyError unless n is 2, 3 or 4) followed by
ret = full(pad); ret[:min(n, N)] = self[:min(n, N)]. -/
def VectorN.asVectorSize (v : List ℝ) (n : Nat) (pad : ℝ) : Except Err (List ℝ) :=
  if n = v.length then .ok v
  else if n = 2 ∨ n = 3 ∨ n = 4 then
    .ok (v.take (min n v.length) ++ List.replicate (n - min n v.length) pad)
  else .error .keyError

/-- VectorNArray.asVectorSize on an array of rows of dimension N: a copy when
n == N, otherwise a VECTOR_ARRAY_BY_SIZE lookup (KeyError unless n is 2, 3
or 4) followed by ret = full(len(self), pad); ret[:, :min(n, N)] = self[:, :min(n, N)]. -/
def VectorNArray.asVectorSize (N : Nat) (rows : List (List ℝ)) (n : Nat) (pad : ℝ) :
    Except Err (List (List ℝ)) :=
  if n = N then .ok rows
  else if n = 2 ∨ n = 3 ∨ n = 4 then
    .ok (rows.map (fun r => r.take (min n N) ++ List.replicate (n - min n N) pad))
  else .error .keyError

/-- The concrete type computed by getReturnType and the column guard of
the getitem overrides: either one of the domain types (the scalar item
type or the batched array type), an untyped np.ndarray, or None meaning
the raw scalar is returned unchanged. -/
inductive RetTy
  | itemT
  | arrayT
  | ndarrayT
  | noneT
deriving DecidableEq, Repr

/-- VectorNArray.getReturnType on a result shape: empty shape gives None,
a two-axis shape whose second axis is N gives the array class, a one-axis
shape of extent N gives the scalar item class, anything else np.ndarray. -/
def VectorNArray.getReturnType (N : Nat) (shape : List Nat) : RetTy :=
  match shape with
  | [] => .noneT
  | [a] => if a = N then .itemT else .ndarrayT
  | [_, b] => if b = N then .arrayT else .ndarrayT
  | _ => .ndarrayT

/-- QuaternionArray.getReturnType on a result shape: same rule with N fixed
to 4, the item class Quaternion and the array class QuaternionArray. -/
def QuaternionArray.getReturnType (shape : List Nat) : RetTy :=
  match shape with
  | [] => .noneT
  | [a] => if a = 4 then .itemT else .ndarrayT
  | [_, b] => if b = 4 then .arrayT else .ndarrayT
  | _ => .ndarrayT

/-- The type produced by column-style indexing arr[:, j] on a VectorNArray
with k rows: the result has shape (k,) and VectorNArray.getitem applies
getReturnType to it directly, with no special case for tuple indices. -/
def VectorNArray.getitemColType (N k _j : Nat) : RetTy :=
  VectorNArray.getReturnType N [k]

/-- The type produced by column-style indexing arr[:, j] on a
QuaternionArray with k rows: the index is a tuple of length 2 whose second
entry is an integer rather than the full slice, so the guard in
QuaternionArray.getitem returns the view as a plain np.ndarray. -/
def QuaternionArray.getitemColType (_k _j : Nat) : RetTy :=
  RetTy.ndarrayT

/-- The result of np.asarray on a (possibly nested) numeric initializer:
a rectangular array with a shape and row-major data.  numpy size is the
product of the shape extents. -/
structure NDArray where
  shape : List Nat
  data : List ℝ

/-- The numpy size attribute checked by the constructors. -/
def NDArray.size (a : NDArray) : Nat := a.shape.prod

/-- Quaternion constructor on a given initializer: raise ValueError when
ary.size != 4, otherwise return ary.view(cls), which keeps the shape and
data of the input unchanged. -/
def Quaternion.new (a : NDArray) : Except Err NDArray :=
  if NDArray.size a = 4 then .ok a else .error .valueError

/-- VectorN constructor for the subclass of dimension N: raise ValueError
when ary.size != N, otherwise return ary.view(cls), which keeps the shape
and data of the input unchanged. -/
def VectorN.new (N : Nat) (a : NDArray) : Except Err NDArray :=
  if NDArray.size a = N then .ok a else .error .valueError

/-- VectorNArray.append, with the receiver state made explicit: the first
component is the contents of self after the call and the second the
outcome.  Every VectorNArray built by the constructor is a view
(ary.reshape then ary.view(cls)) that does not own its data, so the
self.resize call raises ValueError (cannot resize a non-owning array)
before writing anything: the receiver keeps its prior contents and the
assignment self[-1] = v is never executed. -/
def VectorNArray.append (a : List (List ℝ)) (_v : List ℝ) :
    List (List ℝ) × Except Err Unit :=
  (a, .error .valueError)

/-- VectorNArray.extend, with the receiver state made explicit: as in
append, self.resize raises ValueError on the non-owning constructor-built
view before the write self[-len(v):] = v, leaving the receiver unchanged. -/
def VectorNArray.extend (a _vs : List (List ℝ)) :
    List (List ℝ) × Except Err Unit :=
  (a, .error .valueError)

/-- QuaternionArray.appended, with the receiver state made explicit: ret is
np.resize(self, one longer), a copy, then ret[-1] = value; the first
component is the contents of self after the call, the second the result. -/
def QuaternionArray.appended (a : List Quat) (v : Quat) : List Quat × List Quat :=
  (a, a ++ [v])

/-- QuaternionArray.extended, with the receiver state made explicit: ret is
np.resize(self, len(value) longer), a copy, then ret[-len(value):] = value.
When value is empty that assignment is ret[0:] = value, whose shape (0,)
cannot broadcast into the (*, 4) target and raises ValueError; self is
never modified in either case. -/
def QuaternionArray.extended (a vs : List Quat) : List Quat × Except Err (List Quat) :=
  (a, if vs.length = 0 then .error .valueError else .ok (a ++ vs))

/-! Theorems settling the claims. -/

/-- C1: the spec scenario expects a 180 degree rotation about Z, but
QuaternionArray.axisAngle applies sin and cos to the full angle instead of
the half angle, so axis [0,0,1] with angle pi builds the quaternion
(0,0,0,-1), a full-turn rotation, and multiplying the vector [1,0,0] by it
(vector on the left) returns [1,0,0], not the [-1,0,0] the claim states. -/
theorem axisAngle_pi_scenario_returns_input :
    QuaternionArray.axisAngle ⟨0, 0, 1⟩ Real.pi false = Quat.mk 0 0 0 (-1) ∧
    VectorN.mulQuat ⟨1, 0, 0⟩ (QuaternionArray.axisAngle ⟨0, 0, 1⟩ Real.pi false) =
      Vec3.mk 1 0 0 ∧
    Vec3.mk 1 0 0 ≠ Vec3.mk (-1) 0 0 := by
  have h1 : QuaternionArray.axisAngle ⟨0, 0, 1⟩ Real.pi false = Quat.mk 0 0 0 (-1) := by
    simp [QuaternionArray.axisAngle, convertAngle, Real.sin_pi, Real.cos_pi]
  refine ⟨h1, ?_, ?_⟩
  · rw [VectorN.mulQuat, h1]
    simp [QuaternionArray.vectorquatproduct, Quat.xyz, cross, vadd, smul3]
  · intro h
    have hx := congrArg Vec3.x h
    norm_num at hx

/-- C2: column-style indexing arr[:, j] always yields an untyped np.ndarray
on QuaternionArray (its getitem has a tuple guard), but on VectorNArray the
guard is missing and getReturnType promotes the shape-(k,) column back to
the scalar domain type whenever the batch length k equals the dimension N;
for example a Vector3Array of 3 rows indexed [:, 0] comes back as Vector3. -/
theorem column_indexing_promotes_on_vector_arrays :
    VectorNArray.getitemColType 3 3 0 = RetTy.itemT ∧
    RetTy.itemT ≠ RetTy.ndarrayT ∧
    (∀ k j, QuaternionArray.getitemColType k j = RetTy.ndarrayT) ∧
    (∀ N k j, VectorNArray.getitemColType N k j =
      if k = N then RetTy.itemT else RetTy.ndarrayT) :=
  ⟨rfl, by decide, fun _ _ => rfl, fun _ _ _ => rfl⟩

/-- C5: the Hamilton product kernel computes, per row,
w = p.w * q.w - dot(p.xyz, q.xyz) and
xyz = p.w * q.xyz + q.w * p.xyz + cross(p.xyz, q.xyz), and multiplying the
identity quaternion (0,0,0,1) by itself yields the identity quaternion. -/
theorem quatquatProduct_hamilton_formula (p q : Quat) :
    (QuaternionArray.quatquatProduct p q).w = p.w * q.w - dot3 (Quat.xyz p) (Quat.xyz q) ∧
    Quat.xyz (QuaternionArray.quatquatProduct p q) =
      vadd (vadd (smul3 p.w (Quat.xyz q)) (smul3 q.w (Quat.xyz p)))
        (cross (Quat.xyz p) (Quat.xyz q)) ∧
    QuaternionArray.quatquatProduct (Quaternion.fromComponents 0 0 0 1)
        (Quaternion.fromComponents 0 0 0 1) =
      Quaternion.fromComponents 0 0 0 1 := by
  refine ⟨?_, rfl, ?_⟩
  · simp [QuaternionArray.quatquatProduct, dot3, Quat.xyz]
  · simp [QuaternionArray.quatquatProduct, Quaternion.fromComponents, vadd, smul3, cross,
      Quat.xyz]

/-- C10: the scalar constructors raise ValueError exactly when the total
element count of the input differs from the required length (4 for
Quaternion, N for VectorN); any nesting shape with the right total count is
accepted, and the accepted value keeps the given shape, for example the
nested initializer of shape [1, 4] is accepted unflattened. -/
theorem constructor_size_rule (N : Nat) (a : NDArray) :
    (Quaternion.new a = .ok a ↔ NDArray.size a = 4) ∧
    (Quaternion.new a = .error .valueError ↔ NDArray.size a ≠ 4) ∧
    (VectorN.new N a = .ok a ↔ NDArray.size a = N) ∧
    (VectorN.new N a = .error .valueError ↔ NDArray.size a ≠ N) ∧
    Quaternion.new ⟨[1, 4], [1, 2, 3, 4]⟩ = .ok ⟨[1, 4], [1, 2, 3, 4]⟩ ∧
    ([1, 4] : List Nat) ≠ [4] := by
  refine ⟨?_, ?_, ?_, ?_, ?_, by decide⟩
  · by_cases h : NDArray.size a = 4 <;> simp [Quaternion.new, h]
  · by_cases h : NDArray.size a = 4 <;> simp [Quaternion.new, h]
  · by_cases h : NDArray.size a = N <;> simp [VectorN.new, h]
  · by_cases h : NDArray.size a = N <;> simp [VectorN.new, h]
  · norm_num [Quaternion.new, NDArray.size]

/-- C9: alignedRotations uses the half-angle convention: for axis name a and
angle theta (converted from degrees first when degrees is true) it builds
the quaternion with w = cos(theta / 2), the component of axis a equal to
sin(theta / 2) and the other two components zero; consequently it agrees
with axisAngle on the unit basis vector at angle theta / 2, and differs
from axisAngle at angle theta (witnessed at theta = pi). -/
theorem alignedRotations_is_half_angle_axisAngle (a : Axis) (θ : ℝ) (deg : Bool) :
    (QuaternionArray.alignedRotations a θ deg).w = Real.cos (convertAngle θ deg / 2) ∧
    Quat.getC (QuaternionArray.alignedRotations a θ deg) (axisIndex a) =
      Real.sin (convertAngle θ deg / 2) ∧
    (∀ i, i < 3 → i ≠ axisIndex a →
      Quat.getC (QuaternionArray.alignedRotations a θ deg) i = 0) ∧
    QuaternionArray.alignedRotations a θ deg =
      QuaternionArray.axisAngle (basisVec a) (θ / 2) deg ∧
    (∃ t : ℝ, QuaternionArray.alignedRotations a t false ≠
      QuaternionArray.axisAngle (basisVec a) t false) := by
  refine ⟨?_, ?_, ?_, ?_, ?_⟩
  · cases a <;>
      simp [QuaternionArray.alignedRotations, Quat.setC, QuaternionArray.zeroRow, axisIndex]
  · cases a <;>
      simp [QuaternionArray.alignedRotations, Quat.setC, QuaternionArray.zeroRow, axisIndex,
        Quat.getC]
  · intro i hi hne
    cases a <;> interval_cases i <;>
      simp_all [QuaternionArray.alignedRotations, Quat.setC, QuaternionArray.zeroRow,
        axisIndex, Quat.getC]
  · cases a <;> cases deg <;>
      simp [QuaternionArray.alignedRotations, QuaternionArray.axisAngle, Quat.setC,
        QuaternionArray.zeroRow, axisIndex, basisVec, convertAngle, deg2rad,
        Quat.mk.injEq] <;>
      ring_nf <;> simp
  · refine ⟨Real.pi, fun h => ?_⟩
    have hw := congrArg Quat.w h
    cases a <;>
      norm_num [QuaternionArray.alignedRotations, QuaternionArray.axisAngle, Quat.setC,
        QuaternionArray.zeroRow, axisIndex, basisVec, convertAngle, Real.cos_pi,
        Real.cos_pi_div_two] at hw

/-- C9 witness: the zero-component clause instantiated at axis z, angle 0,
index 0, with both side conditions discharged concretely. -/
theorem alignedRotations_is_half_angle_axisAngle_witness :
    (0 : Nat) < 3 ∧ (0 : Nat) ≠ axisIndex Axis.z ∧
    Quat.getC (QuaternionArray.alignedRotations Axis.z 0 false) 0 = 0 :=
  ⟨by decide, by decide,
    (alignedRotations_is_half_angle_axisAngle Axis.z 0 false).2.2.1 0 (by decide) (by decide)⟩

/-- C4: away from the clamp (the per-row dot of the two quaternions has
absolute value strictly below 1, so the clamp of cosHalfAngle to 1 does not
fire), slerp at t = 0 returns the first quaternion exactly and slerp at
t = 1 returns the second quaternion exactly. -/
theorem slerp_endpoints (p q : Quat) (h : |qdot p q| < 1) :
    QuaternionArray.slerp p q 0 = p ∧ QuaternionArray.slerp p q 1 = q := by
  have hc : ¬ (1 ≤ |qdot p q|) := not_le.mpr h
  have habs := abs_lt.mp h
  have hsne : Real.sqrt (1 - qdot p q * qdot p q) ≠ 0 := by
    have : 0 < 1 - qdot p q * qdot p q := by nlinarith [habs.1, habs.2]
    exact ne_of_gt (Real.sqrt_pos.mpr this)
  have hsin : Real.sin (Real.arccos (qdot p q)) = Real.sqrt (1 - qdot p q * qdot p q) := by
    rw [Real.sin_arccos]
    congr 1
    ring
  constructor
  · simp only [QuaternionArray.slerp, if_neg hc]
    norm_num
    rw [hsin, div_self hsne]
    simp [qadd, qscale]
  · simp only [QuaternionArray.slerp, if_neg hc]
    norm_num
    rw [hsin, div_self hsne]
    simp [qadd, qscale]

/-- C4 witness: the slerp endpoint identities at two concrete orthogonal
unit quaternions, whose dot is 0 so the clamp hypothesis holds. -/
theorem slerp_endpoints_witness :
    |qdot ⟨1, 0, 0, 0⟩ ⟨0, 1, 0, 0⟩| < 1 ∧
    (QuaternionArray.slerp ⟨1, 0, 0, 0⟩ ⟨0, 1, 0, 0⟩ 0 = (⟨1, 0, 0, 0⟩ : Quat) ∧
      QuaternionArray.slerp ⟨1, 0, 0, 0⟩ ⟨0, 1, 0, 0⟩ 1 = (⟨0, 1, 0, 0⟩ : Quat)) := by
  have hd : |qdot (⟨1, 0, 0, 0⟩ : Quat) ⟨0, 1, 0, 0⟩| < 1 := by norm_num [qdot]
  exact ⟨hd, slerp_endpoints _ _ hd⟩

/-- Helper: parallelTransport reaches the zeros allocation on every input
and fails there with AttributeError, whatever the points, the up-vector or
the inverse flag are. -/
theorem parallelTransport_raises (pts : List Vec3) (upv : Vec3) (inv : Bool) :
    VectorNArray.parallelTransport pts upv inv = .error .attributeError := rfl

/-- C3: the claim expects parallel transport along a straight polyline to
return the initial up-vector at every point, but parallelTransport never
returns: it fails on every input, before its loop, with AttributeError at
out = VECTOR_ARRAY_BY_SIZE[3].zeros(len(self)), because the VectorNArray
class defines no zeros constructor (only ones and full). -/
theorem parallelTransport_attribute_error_on_straight_line :
    VectorNArray.parallelTransport [⟨0, 0, 0⟩, ⟨1, 0, 0⟩, ⟨2, 0, 0⟩] ⟨0, 0, 1⟩ false =
      .error .attributeError ∧
    ∀ pts upv inv, VectorNArray.parallelTransport pts upv inv = .error .attributeError :=
  ⟨parallelTransport_raises _ _ _, fun pts upv inv => parallelTransport_raises pts upv inv⟩

/-- C7 counterexample: on a one-point array parallelTransport raises
AttributeError at the missing zeros constructor, not the ValueError domain
error of an explicit precondition check, so the claim that both functions
raise a precondition (domain) error on fewer than 2 points is false. -/
theorem parallelTransport_short_input_not_domain_error :
    VectorNArray.parallelTransport [(⟨0, 0, 0⟩ : Vec3)] ⟨0, 0, 1⟩ false =
      .error .attributeError ∧
    Err.attributeError ≠ Err.valueError :=
  ⟨parallelTransport_raises _ _ _, by decide⟩

/-- C7 amended: on fewer than 2 points adjacentLengths raises its explicit
ValueError precondition error before producing output, while
parallelTransport has no precondition check at all: it fails on those
inputs, as on every input, with AttributeError at the
VECTOR_ARRAY_BY_SIZE[3].zeros allocation. -/
theorem precondition_error_kinds (pts : List Vec3) (h : pts.length < 2) :
    VectorNArray.adjacentLengths pts = .error .valueError ∧
    ∀ upv inv, VectorNArray.parallelTransport pts upv inv = .error .attributeError :=
  ⟨by simp [VectorNArray.adjacentLengths, h],
    fun upv inv => parallelTransport_raises pts upv inv⟩

/-- C7 witness: the amended statement at the concrete one-point array, with
the length hypothesis discharged concretely. -/
theorem precondition_error_kinds_witness :
    ([(⟨0, 0, 0⟩ : Vec3)].length < 2) ∧
    (VectorNArray.adjacentLengths [(⟨0, 0, 0⟩ : Vec3)] = .error .valueError ∧
      ∀ upv inv, VectorNArray.parallelTransport [(⟨0, 0, 0⟩ : Vec3)] upv inv =
        .error .attributeError) := by
  have h : ([(⟨0, 0, 0⟩ : Vec3)]).length < 2 := by simp
  exact ⟨h, precondition_error_kinds _ h⟩

/-- Helper: monadic map over Except succeeds rowwise when every row
application succeeds. -/
theorem mapM_ok_of_forall {α β : Type} (f : α → Except Err β) (g : α → β) :
    ∀ l : List α, (∀ r ∈ l, f r = .ok (g r)) → l.mapM f = .ok (l.map g) := by
  intro l h
  induction l with
  | nil => rfl
  | cons a t ih =>
    rw [List.mapM_cons, h a (List.mem_cons_self a t),
      ih fun r hr => h r (List.mem_cons_of_mem a hr)]
    rfl

/-- Helper: when the requested size differs from the current dimension and
is one of the registered sizes, asVectorSize returns the padded truncation. -/
theorem asVectorSize_lookup (w : List ℝ) (m : Nat) (pd : ℝ)
    (hne : ¬ m = w.length) (hm : m = 2 ∨ m = 3 ∨ m = 4) :
    VectorN.asVectorSize w m pd =
      .ok (w.take (min m w.length) ++ List.replicate (m - min m w.length) pd) := by
  simp [VectorN.asVectorSize, hne, hm]

/-- C6: asVectorSize returns a copy when the requested size equals the
dimension, the first M components when smaller, and the original components
padded with the pad value when larger; padding then truncating back
round-trips to the original vector when n is at least N, while truncating
then padding keeps only the first n components and fills the tail with the
new pad value; the array form acts rowwise exactly like the scalar form. -/
theorem asVectorSize_cases (N n : Nat) (v : List ℝ) (pad pad2 : ℝ)
    (hN : N = 2 ∨ N = 3 ∨ N = 4) (hn : n = 2 ∨ n = 3 ∨ n = 4) (hv : v.length = N) :
    (n = N → VectorN.asVectorSize v n pad = .ok v) ∧
    (n < N → VectorN.asVectorSize v n pad = .ok (v.take n)) ∧
    (N < n → VectorN.asVectorSize v n pad = .ok (v ++ List.replicate (n - N) pad)) ∧
    (N ≤ n → (VectorN.asVectorSize v n pad).bind (fun w => VectorN.asVectorSize w N pad2) =
      .ok v) ∧
    (n < N → (VectorN.asVectorSize v n pad).bind (fun w => VectorN.asVectorSize w N pad2) =
      .ok (v.take n ++ List.replicate (N - n) pad2)) ∧
    (∀ rows : List (List ℝ), (∀ r ∈ rows, r.length = N) →
      VectorNArray.asVectorSize N rows n pad =
        rows.mapM (fun r => VectorN.asVectorSize r n pad)) := by
  have hcopy : n = N → VectorN.asVectorSize v n pad = .ok v := by
    intro he
    have : n = v.length := by omega
    simp [VectorN.asVectorSize, this]
  have hsmall : n < N → VectorN.asVectorSize v n pad = .ok (v.take n) := by
    intro hlt
    rw [asVectorSize_lookup v n pad (by omega) hn]
    have hmin : min n v.length = n := by omega
    rw [hmin, Nat.sub_self]
    simp
  have hbig : N < n → VectorN.asVectorSize v n pad = .ok (v ++ List.replicate (n - N) pad) := by
    intro hlt
    rw [asVectorSize_lookup v n pad (by omega) hn]
    have hmin : min n v.length = v.length := by omega
    rw [hmin, List.take_length, hv]
  have hself : VectorN.asVectorSize v N pad2 = .ok v := by
    have : N = v.length := by omega
    simp [VectorN.asVectorSize, this]
  refine ⟨hcopy, hsmall, hbig, ?_, ?_, ?_⟩
  · intro hle
    by_cases he : n = N
    · rw [hcopy he]
      simpa [Except.bind] using hself
    · have hlt : N < n := by omega
      rw [hbig hlt]
      show VectorN.asVectorSize (v ++ List.replicate (n - N) pad) N pad2 = .ok v
      have hwlen : (v ++ List.replicate (n - N) pad).length = n := by
        simp [List.length_append, List.length_replicate, hv]
        omega
      rw [asVectorSize_lookup _ N pad2 (by omega) hN]
      have hmin : min N (v ++ List.replicate (n - N) pad).length = N := by
        rw [hwlen]; omega
      rw [hmin, Nat.sub_self]
      have htake : (v ++ List.replicate (n - N) pad).take N = v := by
        rw [← hv]
        exact List.take_left v _
      rw [htake]
      simp
  · intro hlt
    rw [hsmall hlt]
    show VectorN.asVectorSize (v.take n) N pad2 = .ok (v.take n ++ List.replicate (N - n) pad2)
    have hwlen : (v.take n).length = n := by
      simp [List.length_take]
      omega
    rw [asVectorSize_lookup _ N pad2 (by omega) hN]
    have hmin : min N (v.take n).length = n := by rw [hwlen]; omega
    rw [hmin]
    have htake : (v.take n).take n = v.take n := List.take_of_length_le (le_of_eq hwlen)
    rw [htake]
  · intro rows hr
    by_cases he : n = N
    · subst he
      have hmapM : rows.mapM (fun r => VectorN.asVectorSize r n pad) = .ok (rows.map id) := by
        apply mapM_ok_of_forall
        intro r hrm
        have : n = r.length := by rw [hr r hrm]
        simp [VectorN.asVectorSize, this]
      rw [hmapM, List.map_id]
      simp [VectorNArray.asVectorSize]
    · have hmapM : rows.mapM (fun r => VectorN.asVectorSize r n pad) =
          .ok (rows.map (fun r => r.take (min n N) ++ List.replicate (n - min n N) pad)) := by
        apply mapM_ok_of_forall
        intro r hrm
        rw [asVectorSize_lookup r n pad (by rw [hr r hrm]; omega) hn, hr r hrm]
      rw [hmapM]
      simp [VectorNArray.asVectorSize, he, hn]

/-- C6 witness: the padding case and the round-trip at the concrete vector
[1, 2, 3] of dimension 3 resized to 4, with all hypotheses discharged. -/
theorem asVectorSize_cases_witness :
    ((3 : Nat) = 2 ∨ (3 : Nat) = 3 ∨ (3 : Nat) = 4) ∧
    ((4 : Nat) = 2 ∨ (4 : Nat) = 3 ∨ (4 : Nat) = 4) ∧
    ([(1 : ℝ), 2, 3].length = 3) ∧
    ((3 : Nat) < 4 → VectorN.asVectorSize [(1 : ℝ), 2, 3] 4 7 =
      .ok ([(1 : ℝ), 2, 3] ++ List.replicate 1 7)) ∧
    ((3 : Nat) ≤ 4 →
      (VectorN.asVectorSize [(1 : ℝ), 2, 3] 4 7).bind
        (fun w => VectorN.asVectorSize w 3 9) = .ok [(1 : ℝ), 2, 3]) := by
  have h := asVectorSize_cases 3 4 [(1 : ℝ), 2, 3] 7 9 (by decide) (by decide) rfl
  exact ⟨by decide, by decide, rfl, h.2.2.1, h.2.2.2.1⟩

/-- C8 counterexample: VectorNArray.append does not return a new value; on
a constructor-built receiver the self.resize call raises ValueError since
the array is a non-owning view, contradicting the claim that every
mutating-looking operation except normalize returns a new value. -/
theorem append_raises_instead_of_returning :
    (VectorNArray.append [[0, 0, 0]] [1, 1, 1]).2 = .error .valueError ∧
    (Except.error Err.valueError : Except Err Unit) ≠ .ok () := by
  constructor
  · rfl
  · intro hcontra
    cases hcontra

/-- C8 amended: append and extend on a constructor-built VectorNArray
raise ValueError (resize refuses a view that does not own its data) and
leave the receiver unchanged without returning a value, while appended and
extended on QuaternionArray leave the receiver unchanged and return a
fresh array holding the prior contents followed by the new values
(extended raises a broadcast ValueError when given an empty value). -/
theorem array_growth_ops (a : List (List ℝ)) (v : List ℝ) (vs : List (List ℝ))
    (qa : List Quat) (q : Quat) (qs : List Quat) :
    VectorNArray.append a v = (a, .error .valueError) ∧
    VectorNArray.extend a vs = (a, .error .valueError) ∧
    (QuaternionArray.appended qa q).1 = qa ∧
    (QuaternionArray.appended qa q).2 = qa ++ [q] ∧
    (QuaternionArray.extended qa qs).1 = qa ∧
    (qs ≠ [] → (QuaternionArray.extended qa qs).2 = .ok (qa ++ qs)) := by
  refine ⟨rfl, rfl, rfl, rfl, rfl, fun hne => ?_⟩
  have h0 : ¬ qs.length = 0 := by simpa [List.length_eq_zero] using hne
  simp [QuaternionArray.extended, h0]

/-- C8 witness: the extended clause at concrete lists, with the
nonemptiness hypothesis discharged concretely. -/
theorem array_growth_ops_witness :
    ([Quaternion.identity] ≠ ([] : List Quat)) ∧
    (QuaternionArray.extended [] [Quaternion.identity]).2 = .ok [Quaternion.identity] := by
  have hne : [Quaternion.identity] ≠ ([] : List Quat) := by simp
  exact ⟨hne,
    (array_growth_ops [] [] [] [] Quaternion.identity
      [Quaternion.identity]).2.2.2.2.2 hne⟩

end

end Math3d
